import Mathlib

/-!
# Verification of the bolt sidecar coordinator

Shallow embedding of the bolt sidecar's event-driven coordinator:
the consensus state tracker (`src/bolt-sidecar/src/state/consensus.rs`),
the driver event handlers and `pick_public_key`
(`src/bolt-sidecar/src/driver.rs`), and the BLS signing digests of
delegation/revocation messages (`src/bolt-sidecar/src/primitives/mod.rs`).

Modelling conventions:
* `u64` slots, epochs and validator indexes are `Nat` (the code never
  relies on wrap-around for these; additions like `start_slot +
  SLOTS_PER_EPOCH` stay far below `2^64` for all realistic inputs, and the
  claims under study are about comparisons, not modular arithmetic).
* `std::time::Instant` is a `Nat` number of nanoseconds; `Instant::now()`
  becomes an explicit `now` parameter threaded into each operation.
* BLS public keys are opaque tokens, modelled as `Nat`.
* Rust `HashSet` arguments are modelled as the list of their elements in
  the set's iteration order (the order `for x in set` would observe).
* Fallible Rust functions returning `Result` become `Except`.
* Asynchronous effects (beacon-API fetches, BLS signing, spawned relay
  submissions) are modelled by explicit oracle parameters, and the
  observable effects of a handler (messages signed, constraint lists
  submitted, payloads built) are returned alongside the new state.
-/

namespace Bolt

/-- `SLOTS_PER_EPOCH` from `ethereum_consensus::phase0::mainnet`. -/
def SLOTS_PER_EPOCH : Nat := 32

/-- A BLS public key, modelled as an opaque token. -/
abbrev BlsPublicKey := Nat

/-- A BLS signature, modelled as an opaque token. -/
abbrev BlsSignature := Nat

/-- An alias for a Beacon Chain slot number (`primitives/mod.rs`). -/
abbrev Slot := Nat

/-- `beacon_api_client::ProposerDuty`: assignment of a validator to a slot. -/
structure ProposerDuty where
  public_key : BlsPublicKey
  slot : Slot
  validator_index : Nat
deriving DecidableEq, Repr

/-- `config::ValidatorIndexes`: the configured authorized validator indexes.
Its `contains` method is membership. -/
structure ValidatorIndexes where
  indexes : List Nat
deriving DecidableEq, Repr

/-- `ValidatorIndexes::contains`. -/
def ValidatorIndexes.contains (v : ValidatorIndexes) (i : Nat) : Bool :=
  v.indexes.contains i

/-- `Epoch` from `state/consensus.rs`: epoch number, start slot, and the
proposer duties fetched for it (also covering the next epoch when the
unsafe lookahead flag is enabled). -/
structure Epoch where
  value : Nat
  start_slot : Slot
  proposer_duties : List ProposerDuty
deriving DecidableEq, Repr

/-- Modelled from the spec: `CommitmentDeadline` (its source file
`state/mod.rs` is not in the sampled sources). The spec describes it as a
one-shot timer armed for a slot with a duration; `consensus.rs` only
constructs it via `CommitmentDeadline::new(slot, duration)`, so we record
exactly those two arguments. -/
structure CommitmentDeadline where
  slot : Slot
  duration : Nat
deriving DecidableEq, Repr

/-- `CommitmentDeadline::new`. -/
def CommitmentDeadline.new (slot : Slot) (duration : Nat) : CommitmentDeadline :=
  { slot := slot, duration := duration }

/-- `ConsensusError` from `state/consensus.rs`. The `BeaconApiError`
payload is dropped (it wraps an opaque client error). -/
inductive ConsensusError where
  | BeaconApiError
  | InvalidSlot (slot : Slot)
  | DeadlineExceeded
  | ValidatorNotFound
deriving DecidableEq, Repr

/-- `ConsensusState` from `state/consensus.rs`. The beacon API client is
not part of the state model: its responses are passed as an oracle to the
operations that use it. `Instant`s are nanosecond counts. -/
structure ConsensusState where
  epoch : Epoch
  validator_indexes : ValidatorIndexes
  latest_slot_timestamp : Nat
  latest_slot : Slot
  commitment_deadline : CommitmentDeadline
  commitment_deadline_duration : Nat
  unsafe_lookahead_enabled : Bool
deriving DecidableEq, Repr

/-- `InclusionRequest` (`primitives/commitment.rs`): target slot and raw
transactions. Transactions are opaque tokens here. -/
structure InclusionRequest where
  slot : Slot
  txs : List Nat
deriving DecidableEq, Repr

/-- `CommitmentRequest` — currently only the `Inclusion` variant. -/
inductive CommitmentRequest where
  | Inclusion (req : InclusionRequest)
deriving DecidableEq, Repr

/-- `ConsensusState::find_validator_pubkey_for_slot`: first proposer duty
whose slot matches and whose validator index is authorized. -/
def ConsensusState.find_validator_pubkey_for_slot (c : ConsensusState) (slot : Slot) :
    Except ConsensusError BlsPublicKey :=
  match c.epoch.proposer_duties.find?
      (fun duty => duty.slot == slot && c.validator_indexes.contains duty.validator_index) with
  | some duty => .ok duty.public_key
  | none => .error .ValidatorNotFound

/-- `ConsensusState::validate_request`. `now` is the value of
`Instant::now()` at the deadline comparison. -/
def ConsensusState.validate_request (c : ConsensusState) (now : Nat)
    (request : CommitmentRequest) : Except ConsensusError BlsPublicKey :=
  match request with
  | .Inclusion req =>
    -- the source binds `furthest_slot` first; it is inlined here
    if req.slot < c.epoch.start_slot ∨
        req.slot ≥ c.epoch.start_slot + SLOTS_PER_EPOCH +
          (if c.unsafe_lookahead_enabled then SLOTS_PER_EPOCH else 0) then
      .error (.InvalidSlot req.slot)
    else if req.slot = c.latest_slot + 1 ∧
        c.latest_slot_timestamp + c.commitment_deadline_duration < now then
      .error .DeadlineExceeded
    else
      c.find_validator_pubkey_for_slot req.slot

/-- A concrete consensus state used for counterexamples and witnesses:
epoch 0 with one proposer duty (pubkey 7, slot 1, validator index 100),
authorized index 100, latest slot 0 received at time 0, and a commitment
deadline duration of 5. -/
def exampleState : ConsensusState :=
  { epoch := { value := 0, start_slot := 0, proposer_duties := [⟨7, 1, 100⟩] }
    validator_indexes := ⟨[100]⟩
    latest_slot_timestamp := 0
    latest_slot := 0
    commitment_deadline := ⟨1, 5⟩
    commitment_deadline_duration := 5
    unsafe_lookahead_enabled := false }

/-- `ConsensusState::fetch_proposer_duties`. `getDuties e` is the beacon
API's response for `get_proposer_duties(e)` (`.error` = API failure).
When the unsafe lookahead flag is set, both the epoch's and the next
epoch's duties are fetched and concatenated. Returns the updated state
together with the list of epochs that were queried. -/
def ConsensusState.fetch_proposer_duties (c : ConsensusState)
    (getDuties : Nat → Except Unit (List ProposerDuty)) (epoch : Nat) :
    Except ConsensusError (ConsensusState × List Nat) :=
  if c.unsafe_lookahead_enabled then
    match getDuties epoch, getDuties (epoch + 1) with
    | .ok duties, .ok next_duties =>
      .ok ({ c with epoch.proposer_duties := duties ++ next_duties }, [epoch, epoch + 1])
    | .error _, _ => .error .BeaconApiError
    | _, .error _ => .error .BeaconApiError
  else
    match getDuties epoch with
    | .ok duties => .ok ({ c with epoch.proposer_duties := duties }, [epoch])
    | .error _ => .error .BeaconApiError

/-- `ConsensusState::update_slot`. `now` is `Instant::now()` at the call;
`getDuties` is the beacon API oracle. Returns the updated state and the
list of epochs whose proposer duties were fetched (empty when no fetch
happened). -/
def ConsensusState.update_slot (c : ConsensusState) (now : Nat)
    (getDuties : Nat → Except Unit (List ProposerDuty)) (slot : Slot) :
    Except ConsensusError (ConsensusState × List Nat) :=
  let c := { c with
    commitment_deadline := CommitmentDeadline.new (slot + 1) c.commitment_deadline_duration,
    latest_slot_timestamp := now,
    latest_slot := slot }
  let epoch := slot / SLOTS_PER_EPOCH
  if epoch ≠ c.epoch.value then
    let c := { c with epoch.value := epoch, epoch.start_slot := epoch * SLOTS_PER_EPOCH }
    c.fetch_proposer_duties getDuties epoch
  else if c.epoch.proposer_duties.isEmpty then
    c.fetch_proposer_duties getDuties epoch
  else
    .ok (c, [])

/-! ## Driver (`src/bolt-sidecar/src/driver.rs`) -/

/-- `ConstraintsMessage` (`primitives/constraint.rs`), built by
`ConstraintsMessage::from_transaction(pubkey, target_slot, tx)`. -/
structure ConstraintsMessage where
  pubkey : BlsPublicKey
  slot : Slot
  tx : Nat
deriving DecidableEq, Repr

/-- `SignedConstraints` (`primitives/constraint.rs`). -/
structure SignedConstraints where
  message : ConstraintsMessage
  signature : BlsSignature
deriving DecidableEq, Repr

/-- Modelled from the spec: `BlockTemplate`
(`state/execution.rs` is not in the sampled sources). Only the field the
driver reads — the ordered append-only `signed_constraints_list` — is
modelled; the projected intermediate state and accumulators are not
observed by any claim under study. -/
structure BlockTemplate where
  signed_constraints_list : List SignedConstraints
deriving DecidableEq, Repr

/-- Modelled from the spec: `ExecutionState`'s template map
(`state/execution.rs` is not in the sampled sources), as an association
list from slot to `BlockTemplate`. -/
structure ExecutionState where
  templates : List (Slot × BlockTemplate)
deriving DecidableEq, Repr

/-- Template stored for a slot, if any. -/
def ExecutionState.template_at (ex : ExecutionState) (slot : Slot) : Option BlockTemplate :=
  (ex.templates.find? (fun p => p.1 == slot)).map Prod.snd

/-- Append a constraint to the entry of the given slot in a template
association list, creating the entry if absent. -/
def updateTemplates : List (Slot × BlockTemplate) → Slot → SignedConstraints →
    List (Slot × BlockTemplate)
  | [], slot, sc => [(slot, ⟨[sc]⟩)]
  | (s, t) :: rest, slot, sc =>
    if s == slot then (s, ⟨t.signed_constraints_list ++ [sc]⟩) :: rest
    else (s, t) :: updateTemplates rest slot sc

/-- Modelled from the spec: `ExecutionState::add_constraint(slot, sc)`
"appends to `templates[slot]`" — a missing template is created with the
single constraint. -/
def ExecutionState.add_constraint (ex : ExecutionState) (slot : Slot)
    (sc : SignedConstraints) : ExecutionState :=
  { templates := updateTemplates ex.templates slot sc }

/-- The signed-constraints list currently stored for a slot (empty when
no template exists). Observation function used to state frame and
no-rollback properties. -/
def ExecutionState.constraintsAt (ex : ExecutionState) (slot : Slot) : List SignedConstraints :=
  match ex.template_at slot with
  | some t => t.signed_constraints_list
  | none => []

/-- Modelled from the spec: `ExecutionState::get_block_template(slot)`
"returns the template if present and non-empty". -/
def ExecutionState.get_block_template (ex : ExecutionState) (slot : Slot) :
    Option BlockTemplate :=
  match ex.template_at slot with
  | some t => if t.signed_constraints_list.isEmpty then none else some t
  | none => none

/-- `pick_public_key` (`driver.rs`). The two `HashSet` arguments are the
lists of their elements in iteration order; the `for delegatee in
delegatees` loop returns the first delegatee contained in `available`. -/
def pick_public_key (validator : BlsPublicKey) (available : List BlsPublicKey)
    (delegatees : List BlsPublicKey) : Option BlsPublicKey :=
  if delegatees.isEmpty then
    if available.contains validator then some validator else none
  else
    delegatees.find? (fun delegatee => available.contains delegatee)

/-- `CommitmentError` (`commitments/spec.rs`) as observed in `driver.rs`:
the value sent on an API event's response channel. -/
inductive CommitmentResponse where
  | ok (commitment : Nat)
  | consensusErr (e : ConsensusError)
  | validationErr
  | internalErr
deriving DecidableEq, Repr

/-- The oracles standing for the async collaborators of
`handle_incoming_api_event`: the execution-state validation outcome
(`state/execution.rs` is not sampled, so its verdict is an input), the
BLS signer (`none` = signing error), the constraints client's delegatees
lookup result, the signer's available pubkeys, and the ECDSA commitment
signer outcome. -/
structure ApiEventOracles where
  execValidate : Except Unit Unit
  sign : ConstraintsMessage → Option BlsSignature
  delegatees : List BlsPublicKey
  available : List BlsPublicKey
  commitSign : Option Nat

/-- The `for tx in inclusion_request.txs` loop of
`handle_incoming_api_event`: sign one constraint per transaction, calling
`execution.add_constraint` after each successful signature; on a signing
error stop immediately. Returns the updated execution state, the
messages handed to the signer in order, and whether every signature
succeeded. -/
def processTxs (sign : ConstraintsMessage → Option BlsSignature) (pubkey : BlsPublicKey)
    (target_slot : Slot) (ex : ExecutionState) :
    List Nat → ExecutionState × List ConstraintsMessage × Bool
  | [] => (ex, [], true)
  | tx :: rest =>
    let message : ConstraintsMessage := { pubkey := pubkey, slot := target_slot, tx := tx }
    match sign message with
    | some signature =>
      let (ex', msgs, okAll) :=
        processTxs sign pubkey target_slot
          (ex.add_constraint target_slot { message := message, signature := signature }) rest
      (ex', message :: msgs, okAll)
    | none => (ex, [message], false)

/-- The execution state after appending, in order, one signed constraint
per transaction of `txs` (skipping transactions the signer fails on) —
the state produced by the successfully signed portion of the request
loop. -/
def appendSigned (sign : ConstraintsMessage → Option BlsSignature) (pubkey : BlsPublicKey)
    (target_slot : Slot) (ex : ExecutionState) (txs : List Nat) : ExecutionState :=
  txs.foldl (fun e tx =>
    match sign { pubkey := pubkey, slot := target_slot, tx := tx } with
    | some signature =>
      e.add_constraint target_slot
        { message := { pubkey := pubkey, slot := target_slot, tx := tx }, signature := signature }
    | none => e) ex

/-- The signed constraints the signer produces for a list of
transactions (in order, omitting failures). -/
def signedFor (sign : ConstraintsMessage → Option BlsSignature) (pubkey : BlsPublicKey)
    (target_slot : Slot) (txs : List Nat) : List SignedConstraints :=
  txs.filterMap (fun tx =>
    (sign { pubkey := pubkey, slot := target_slot, tx := tx }).map
      (fun s => { message := { pubkey := pubkey, slot := target_slot, tx := tx }, signature := s }))

/-- `SidecarDriver::handle_incoming_api_event` (`driver.rs`).
Returns the new execution state, the response sent on the event's
channel, and the list of constraint messages handed to the BLS signer.
The consensus state is read but never written by this handler. -/
def handle_incoming_api_event (consensus : ConsensusState) (ex : ExecutionState)
    (now : Nat) (oracles : ApiEventOracles) (request : CommitmentRequest) :
    ExecutionState × CommitmentResponse × List ConstraintsMessage :=
  match consensus.validate_request now request with
  | .error err => (ex, .consensusErr err, [])
  | .ok validator_pubkey =>
    match oracles.execValidate with
    | .error _ => (ex, .validationErr, [])
    | .ok _ =>
      match request with
      | .Inclusion inclusion_request =>
        let target_slot := inclusion_request.slot
        match pick_public_key validator_pubkey oracles.available oracles.delegatees with
        | none => (ex, .internalErr, [])
        | some pubkey =>
          let (ex', msgs, okAll) :=
            processTxs oracles.sign pubkey target_slot ex inclusion_request.txs
          if okAll then
            match oracles.commitSign with
            | some commitment => (ex', .ok commitment, msgs)
            | none => (ex', .internalErr, msgs)
          else
            (ex', .internalErr, msgs)

/-- The observable effects of `SidecarDriver::handle_commitment_deadline`:
the `(slot, template)` pairs handed to
`local_builder.build_new_local_payload` and the constraint lists handed to
spawned `submit_constraints` tasks, in order. -/
structure DeadlineEffects where
  built : List (Slot × BlockTemplate)
  submissions : List (List SignedConstraints)
deriving DecidableEq, Repr

/-- `SidecarDriver::handle_commitment_deadline` (`driver.rs`). If no block
template exists for the slot the handler logs and returns; otherwise it
builds a local payload for the template and spawns one relay-submission
task with `template.signed_constraints_list`. Returns the (unchanged)
execution state together with the effects. A local-build error is logged
and does not stop the constraint submission, so the effects do not depend
on its outcome. -/
def handle_commitment_deadline (ex : ExecutionState) (slot : Slot) :
    ExecutionState × DeadlineEffects :=
  match ex.get_block_template slot with
  | none => (ex, { built := [], submissions := [] })
  | some template =>
    (ex, { built := [(slot, template)], submissions := [template.signed_constraints_list] })

/-- The retry loop of the task spawned by `handle_commitment_deadline`:
`result n` tells whether the `n`-th (0-based) `submit_constraints` attempt
succeeds. `i` is the loop's failure counter, `fuel` bounds the remaining
iterations (`maxRetries - 1 - i` at entry, so the `fuel = 0` branch
coincides with the `i >= max_retries` break). Returns the number of
attempts performed and the number of 100 ms sleeps. -/
def retryGo (result : Nat → Bool) (maxRetries : Nat) : Nat → Nat → Nat × Nat
  | i, fuel =>
    if result i then (i + 1, i)
    else
      match fuel with
      | 0 => (i + 1, i + 1)
      | fuel + 1 =>
        if i + 1 ≥ maxRetries then (i + 1, i + 1)
        else retryGo result maxRetries (i + 1) fuel

/-- The spawned relay-submission task of `handle_commitment_deadline`,
with the source's `max_retries = 5` and counter starting at `0`:
`(attempts performed, 100 ms sleeps performed)`. -/
def submit_constraints_task (result : Nat → Bool) : Nat × Nat :=
  retryGo result 5 0 4

/-! ## Local payload fetching (`driver.rs` / `primitives/mod.rs`) -/

/-- Modelled from the spec: the payload-and-bid cached by the
`LocalBuilder` (`builder/` is not in the sampled sources). Per the spec
the builder builds "a payload honoring this template" for a slot, so we
record the slot it was built for plus opaque content. -/
structure PayloadAndBid where
  slot : Slot
  data : Nat
deriving DecidableEq, Repr

/-- Modelled from the spec: the `LocalBuilder`'s payload cache
(`builder/` is not in the sampled sources). `driver.rs` only calls
`get_cached_payload()` on it, which takes no slot argument. -/
structure LocalBuilder where
  cached_payload : Option PayloadAndBid
deriving DecidableEq, Repr

/-- `LocalBuilder::get_cached_payload()` — nullary apart from the
receiver, as called in `handle_fetch_payload_request`. -/
def LocalBuilder.get_cached_payload (b : LocalBuilder) : Option PayloadAndBid :=
  b.cached_payload

/-- `FetchPayloadRequest` (`primitives/mod.rs`): the requested slot; the
one-shot response channel is modelled by returning the value sent. -/
structure FetchPayloadRequest where
  slot : Slot
deriving DecidableEq, Repr

/-- `SidecarDriver::handle_fetch_payload_request` (`driver.rs`): sends
`local_builder.get_cached_payload()` on the request's channel (logging the
requested slot, which is otherwise unused), leaving all state unchanged. -/
def handle_fetch_payload_request (b : LocalBuilder) (_request : FetchPayloadRequest) :
    LocalBuilder × Option PayloadAndBid :=
  (b, b.get_cached_payload)

/-! ## BLS signing digests (`primitives/mod.rs`) -/

/-- `DelegationMessage` (`primitives/mod.rs`). -/
structure DelegationMessage where
  validator_pubkey : BlsPublicKey
  delegatee_pubkey : BlsPublicKey
deriving DecidableEq, Repr

/-- `RevocationMessage` (`primitives/mod.rs`). -/
structure RevocationMessage where
  validator_pubkey : BlsPublicKey
  delegatee_pubkey : BlsPublicKey
deriving DecidableEq, Repr

/-- `SignableBLS::digest` for `DelegationMessage`:
`sha256(validator_pubkey.to_vec() ++ delegatee_pubkey.to_vec())`.
The SHA-256 compression itself and the 48-byte BLS key encoding are taken
as parameters (`sha256`, `toVec`): the claims under study compare the byte
streams fed to the hasher, not the hash internals. The incremental
`hasher.update` calls become concatenation of the two byte strings. -/
def DelegationMessage.digest (sha256 : List Nat → List Nat)
    (toVec : BlsPublicKey → List Nat) (m : DelegationMessage) : List Nat :=
  sha256 (toVec m.validator_pubkey ++ toVec m.delegatee_pubkey)

/-- `SignableBLS::digest` for `RevocationMessage`:
`sha256(validator_pubkey.to_vec() ++ delegatee_pubkey.to_vec())`, with the
same parameters as `DelegationMessage.digest`. -/
def RevocationMessage.digest (sha256 : List Nat → List Nat)
    (toVec : BlsPublicKey → List Nat) (m : RevocationMessage) : List Nat :=
  sha256 (toVec m.validator_pubkey ++ toVec m.delegatee_pubkey)

/-! ## Helper lemmas -/

/-- `List.find?` returns the element at the first index satisfying the
predicate. -/
theorem find?_eq_some_first {α : Type} (p : α → Bool) (l : List α) (k : α) :
    l.find? p = some k ↔
      ∃ i, ∃ h : i < l.length, l.get ⟨i, h⟩ = k ∧ p k = true ∧
        ∀ j, ∀ hj : j < i, p (l.get ⟨j, Nat.lt_trans hj h⟩) = false := by
  induction l with
  | nil => simp
  | cons a l ih =>
    by_cases hpa : p a
    · simp only [List.find?_cons, hpa, if_true]
      constructor
      · intro h
        obtain rfl : a = k := by simpa using h
        exact ⟨0, Nat.succ_pos _, rfl, hpa, fun j hj => absurd hj (Nat.not_lt_zero j)⟩
      · rintro ⟨i, h, hget, hk, hmin⟩
        cases i with
        | zero => simpa using congrArg some hget
        | succ i =>
          exact absurd hpa (by simpa using hmin 0 (Nat.succ_pos i))
    · simp only [List.find?_cons, hpa, if_false]
      rw [ih]
      constructor
      · rintro ⟨i, h, hget, hk, hmin⟩
        refine ⟨i + 1, Nat.succ_lt_succ h, by simpa using hget, hk, ?_⟩
        intro j hj
        cases j with
        | zero => simpa using hpa
        | succ j => simpa using hmin j (Nat.lt_of_succ_lt_succ hj)
      · rintro ⟨i, h, hget, hk, hmin⟩
        cases i with
        | zero =>
          exact absurd hk (by simp at hget; rw [← hget]; simpa using hpa)
        | succ i =>
          refine ⟨i, Nat.lt_of_succ_lt_succ h, by simpa using hget, hk, ?_⟩
          intro j hj
          simpa using hmin (j + 1) (Nat.succ_lt_succ hj)

/-! ## Claim theorems -/

/-- C1 counterexample: a consensus state and request for which the target
slot is in the epoch window and an authorized proposer duty exists at that
slot, yet `validate_request` returns `DeadlineExceeded` rather than `Ok`
(the request targets `latest_slot + 1` and the evaluation time is past
the commitment deadline), refuting "returns Ok iff slot in window and
authorized duty exists". -/
theorem validate_request_ok_iff_counterexample :
    exampleState.validate_request 6 (.Inclusion ⟨1, []⟩) = .error .DeadlineExceeded ∧
      exampleState.epoch.start_slot ≤ 1 ∧
      1 < exampleState.epoch.start_slot + 1 * SLOTS_PER_EPOCH ∧
      exampleState.find_validator_pubkey_for_slot 1 = .ok 7 :=
  ⟨rfl, Nat.zero_le 1, by decide, rfl⟩

/-- C1 (amended): `validate_request` returns `Ok pk` iff the target slot
lies in `[epoch.start_slot, epoch.start_slot + K * SLOTS_PER_EPOCH)` with
`K = 2` when unsafe lookahead is enabled and `1` otherwise, **and** the
deadline check passes (it is not the case that the slot equals
`latest_slot + 1` with `now` strictly past
`latest_slot_timestamp + commitment_deadline_duration`), **and** the first
proposer duty at that slot with an authorized validator index exists and
has public key `pk`. -/
theorem validate_request_ok_iff (c : ConsensusState) (now : Nat) (slot : Slot)
    (txs : List Nat) (pk : BlsPublicKey) :
    c.validate_request now (.Inclusion ⟨slot, txs⟩) = .ok pk ↔
      (c.epoch.start_slot ≤ slot ∧
        slot < c.epoch.start_slot +
          (if c.unsafe_lookahead_enabled then 2 else 1) * SLOTS_PER_EPOCH ∧
        ¬(slot = c.latest_slot + 1 ∧
            c.latest_slot_timestamp + c.commitment_deadline_duration < now) ∧
        ∃ duty, c.epoch.proposer_duties.find?
            (fun d => d.slot == slot && c.validator_indexes.contains d.validator_index) =
              some duty ∧
          pk = duty.public_key) := by
  have hfur : c.epoch.start_slot + SLOTS_PER_EPOCH +
      (if c.unsafe_lookahead_enabled then SLOTS_PER_EPOCH else 0) =
      c.epoch.start_slot + (if c.unsafe_lookahead_enabled then 2 else 1) * SLOTS_PER_EPOCH := by
    cases c.unsafe_lookahead_enabled <;> simp [SLOTS_PER_EPOCH]
  simp only [ConsensusState.validate_request, ConsensusState.find_validator_pubkey_for_slot]
  by_cases h1 : slot < c.epoch.start_slot ∨
      slot ≥ c.epoch.start_slot + SLOTS_PER_EPOCH +
        (if c.unsafe_lookahead_enabled then SLOTS_PER_EPOCH else 0)
  · rw [if_pos h1]
    apply iff_of_false (by simp)
    rintro ⟨ha, hb, -, -⟩
    rw [hfur] at h1
    rcases h1 with h1 | h1
    · exact Nat.lt_irrefl _ (Nat.lt_of_lt_of_le h1 ha)
    · exact Nat.lt_irrefl _ (Nat.lt_of_lt_of_le hb h1)
  · rw [if_neg h1]
    rw [hfur] at h1
    push_neg at h1
    obtain ⟨ha, hb⟩ := h1
    by_cases h2 : slot = c.latest_slot + 1 ∧
        c.latest_slot_timestamp + c.commitment_deadline_duration < now
    · rw [if_pos h2]
      apply iff_of_false (by simp)
      rintro ⟨-, -, hc, -⟩
      exact hc h2
    · rw [if_neg h2]
      rcases hf : c.epoch.proposer_duties.find?
          (fun d => d.slot == slot && c.validator_indexes.contains d.validator_index) with
          _ | duty
      · simp only [hf]
        apply iff_of_false (by simp)
        rintro ⟨-, -, -, duty, hduty, -⟩
        exact absurd hduty (by simp)
      · simp only [hf]
        constructor
        · intro h
          refine ⟨ha, hb, h2, duty, rfl, ?_⟩
          simpa using h.symm
        · rintro ⟨-, -, -, duty', hduty', hpk⟩
          obtain rfl : duty = duty' := by simpa using hduty'
          simp [hpk]

/-- C2 counterexample: evaluated exactly at
`latest_slot_timestamp + commitment_deadline_duration` (time `0 + 5`), a
request for slot `latest_slot + 1` is **admitted** (`Ok 7`), not rejected
with `DeadlineExceeded` as the claim states: the code's comparison is
strict (`deadline < now`). -/
theorem validate_request_deadline_exact_counterexample :
    exampleState.validate_request
        (exampleState.latest_slot_timestamp + exampleState.commitment_deadline_duration)
        (.Inclusion ⟨exampleState.latest_slot + 1, []⟩) = .ok 7 ∧
      Except.ok (7 : BlsPublicKey) ≠
        (.error .DeadlineExceeded : Except ConsensusError BlsPublicKey) :=
  ⟨rfl, by simp⟩

/-- C2 (amended): `validate_request` returns `DeadlineExceeded` iff the
target slot is inside the epoch window, equals `latest_slot + 1`, and the
evaluation time is **strictly** past
`latest_slot_timestamp + commitment_deadline_duration`. In particular at
exactly the deadline instant, or earlier, the deadline check admits the
request, and slots other than `latest_slot + 1` are never rejected with
`DeadlineExceeded`. -/
theorem validate_request_deadline_iff (c : ConsensusState) (now : Nat) (slot : Slot)
    (txs : List Nat) :
    c.validate_request now (.Inclusion ⟨slot, txs⟩) = .error .DeadlineExceeded ↔
      (¬(slot < c.epoch.start_slot ∨
          slot ≥ c.epoch.start_slot + SLOTS_PER_EPOCH +
            (if c.unsafe_lookahead_enabled then SLOTS_PER_EPOCH else 0)) ∧
        slot = c.latest_slot + 1 ∧
        c.latest_slot_timestamp + c.commitment_deadline_duration < now) := by
  simp only [ConsensusState.validate_request, ConsensusState.find_validator_pubkey_for_slot]
  by_cases h1 : slot < c.epoch.start_slot ∨
      slot ≥ c.epoch.start_slot + SLOTS_PER_EPOCH +
        (if c.unsafe_lookahead_enabled then SLOTS_PER_EPOCH else 0)
  · rw [if_pos h1]
    apply iff_of_false (by simp)
    rintro ⟨hc, -, -⟩
    exact hc h1
  · rw [if_neg h1]
    by_cases h2 : slot = c.latest_slot + 1 ∧
        c.latest_slot_timestamp + c.commitment_deadline_duration < now
    · rw [if_pos h2]
      exact iff_of_true rfl ⟨h1, h2.1, h2.2⟩
    · rw [if_neg h2]
      rcases hf : c.epoch.proposer_duties.find?
          (fun d => d.slot == slot && c.validator_indexes.contains d.validator_index) with
          _ | duty <;>
        simp only [hf] <;>
        exact iff_of_false (by simp) (fun h => h2 ⟨h.2.1, h.2.2⟩)

/-- C3 counterexample: with validator `v = 1`, available set `{1}` and
non-empty delegatee set `{1}`, `pick_public_key` returns `v` itself even
though the delegatee set is non-empty, refuting "returns v if and only if
D is empty and v is a member of A". -/
theorem pick_public_key_counterexample :
    pick_public_key 1 [1] [1] = some 1 ∧ ([1] : List BlsPublicKey) ≠ [] := by
  decide

/-- C3 (amended): `pick_public_key(v, A, D)` is a deterministic function
of its arguments (with `D` taken in its iteration order): when `D` is
empty it returns `v` iff `v ∈ A` (else none); when `D` is non-empty it
returns `some k` iff `k` is the element of `D` at the first position whose
element lies in `A` (which may be `v` itself when `v ∈ D ∩ A`), and
returns none iff no element of `D` lies in `A`. (The code stores the
delegatees in a `HashSet`, whose iteration order need not be the
delegation file's insertion order.) -/
theorem pick_public_key_spec (v : BlsPublicKey) (A D : List BlsPublicKey) :
    (D = [] → pick_public_key v A D = if A.contains v then some v else none) ∧
    (D ≠ [] → ∀ k,
      (pick_public_key v A D = some k ↔
        ∃ i, ∃ h : i < D.length, D.get ⟨i, h⟩ = k ∧ A.contains k = true ∧
          ∀ j, ∀ hj : j < i, A.contains (D.get ⟨j, Nat.lt_trans hj h⟩) = false) ∧
      (pick_public_key v A D = none ↔ ∀ d ∈ D, A.contains d = false)) := by
  constructor
  · rintro rfl
    simp [pick_public_key]
  · intro hD k
    have hne : D.isEmpty = false := by
      cases D with
      | nil => exact absurd rfl hD
      | cons d D => rfl
    rw [pick_public_key, if_neg (by simp [hne])]
    constructor
    · exact find?_eq_some_first (fun d => A.contains d) D k
    · simp [List.find?_eq_none, Bool.not_eq_true]

/-- C3 witness: the amended characterization applied to concrete inputs —
empty delegatee set with an unavailable validator key yields none, and a
non-empty delegatee set yields its first available element. -/
theorem pick_public_key_spec_witness :
    pick_public_key 5 [2] [] = none ∧ pick_public_key 5 [2, 3] [3, 2] = some 3 := by
  constructor
  · rw [(pick_public_key_spec 5 [2] []).1 rfl]
    decide
  · exact (((pick_public_key_spec 5 [2, 3] [3, 2]).2 (by simp) 3).1).mpr
      ⟨0, by decide, rfl, by decide, fun j hj => absurd hj (Nat.not_lt_zero j)⟩

/-- Appending a constraint appends to the slot's stored list. -/
theorem constraintsAt_add_constraint (ex : ExecutionState) (slot : Slot)
    (sc : SignedConstraints) :
    (ex.add_constraint slot sc).constraintsAt slot = ex.constraintsAt slot ++ [sc] := by
  obtain ⟨l⟩ := ex
  simp only [ExecutionState.add_constraint, ExecutionState.constraintsAt,
    ExecutionState.template_at]
  induction l with
  | nil => simp [updateTemplates]
  | cons p rest ih =>
    obtain ⟨s, t⟩ := p
    by_cases hs : s = slot
    · subst hs
      simp [updateTemplates]
    · have hbeq : (s == slot) = false := by simpa using hs
      simpa [updateTemplates, hbeq, List.find?_cons] using ih

/-- The fold of successful signatures appends exactly the signed
constraints of the signed transactions. -/
theorem constraintsAt_appendSigned (sign : ConstraintsMessage → Option BlsSignature)
    (pubkey : BlsPublicKey) (slot : Slot) (txs : List Nat) (ex : ExecutionState)
    (h : ∀ tx ∈ txs, (sign { pubkey := pubkey, slot := slot, tx := tx }).isSome) :
    (appendSigned sign pubkey slot ex txs).constraintsAt slot =
      ex.constraintsAt slot ++ signedFor sign pubkey slot txs := by
  induction txs generalizing ex with
  | nil => simp [appendSigned, signedFor]
  | cons tx rest ih =>
    obtain ⟨s, hs⟩ := Option.isSome_iff_exists.mp (h tx (List.mem_cons_self tx rest))
    have hrest : ∀ tx' ∈ rest, (sign { pubkey := pubkey, slot := slot, tx := tx' }).isSome :=
      fun tx' htx' => h tx' (List.mem_cons_of_mem tx htx')
    simp only [appendSigned, signedFor, List.foldl_cons, List.filterMap_cons, hs, Option.map_some]
    rw [← appendSigned, ← signedFor, ih _ hrest, constraintsAt_add_constraint]
    simp

/-- The signing loop of `handle_incoming_api_event` on a transaction list
whose prefix `pre` all signs successfully and whose next transaction
`failTx` fails to sign: the loop stops at `failTx`, having appended the
constraints for `pre` only, and reports failure. -/
theorem processTxs_append_fail (sign : ConstraintsMessage → Option BlsSignature)
    (pubkey : BlsPublicKey) (slot : Slot) (pre : List Nat) (failTx : Nat) (rest : List Nat)
    (ex : ExecutionState)
    (h : ∀ tx ∈ pre, (sign { pubkey := pubkey, slot := slot, tx := tx }).isSome)
    (hfail : sign { pubkey := pubkey, slot := slot, tx := failTx } = none) :
    processTxs sign pubkey slot ex (pre ++ failTx :: rest) =
      (appendSigned sign pubkey slot ex pre,
        (pre ++ [failTx]).map (fun tx => { pubkey := pubkey, slot := slot, tx := tx }),
        false) := by
  induction pre generalizing ex with
  | nil => simp [processTxs, hfail, appendSigned]
  | cons tx pre' ih =>
    obtain ⟨s, hs⟩ := Option.isSome_iff_exists.mp (h tx (List.mem_cons_self tx pre'))
    have hpre' : ∀ tx' ∈ pre', (sign { pubkey := pubkey, slot := slot, tx := tx' }).isSome :=
      fun tx' htx' => h tx' (List.mem_cons_of_mem tx htx')
    have ih' : ∀ e : ExecutionState,
        processTxs sign pubkey slot e (pre' ++ failTx :: rest) =
          (appendSigned sign pubkey slot e pre',
            (pre' ++ [failTx]).map (fun tx => { pubkey := pubkey, slot := slot, tx := tx }),
            false) :=
      fun e => ih e hpre'
    simp only [List.cons_append, processTxs, hs, List.append_eq, ih']
    simp [appendSigned, hs]

/-- C4: when BLS signing fails on transaction `failTx` after the prefix
`pre` of the request's transactions has been signed and appended (and
consensus validation, execution validation and key selection all
succeeded), the handler responds with an internal error and stops — the
signer was invoked only for `pre ++ [failTx]` — while the constraints
already appended for `pre` remain in the slot's template (no rollback). -/
theorem handle_api_event_signing_failure (consensus : ConsensusState) (ex : ExecutionState)
    (now : Nat) (oracles : ApiEventOracles) (slot : Slot) (pre : List Nat) (failTx : Nat)
    (rest : List Nat) (vpk pubkey : BlsPublicKey)
    (h1 : consensus.validate_request now (.Inclusion ⟨slot, pre ++ failTx :: rest⟩) = .ok vpk)
    (h2 : oracles.execValidate = .ok ())
    (h3 : pick_public_key vpk oracles.available oracles.delegatees = some pubkey)
    (h4 : ∀ tx ∈ pre, (oracles.sign { pubkey := pubkey, slot := slot, tx := tx }).isSome)
    (h5 : oracles.sign { pubkey := pubkey, slot := slot, tx := failTx } = none) :
    handle_incoming_api_event consensus ex now oracles (.Inclusion ⟨slot, pre ++ failTx :: rest⟩) =
      (appendSigned oracles.sign pubkey slot ex pre, .internalErr,
        (pre ++ [failTx]).map (fun tx => { pubkey := pubkey, slot := slot, tx := tx })) ∧
    (appendSigned oracles.sign pubkey slot ex pre).constraintsAt slot =
      ex.constraintsAt slot ++ signedFor oracles.sign pubkey slot pre := by
  constructor
  · simp only [handle_incoming_api_event, h1, h2, h3,
      processTxs_append_fail oracles.sign pubkey slot pre failTx rest ex h4 h5]
    simp
  · exact constraintsAt_appendSigned oracles.sign pubkey slot pre ex h4

/-- C4 witness: a two-transaction request where the first transaction
signs and the second fails: internal error response, signer called on
both messages, and the first transaction's constraint remains stored for
slot 1. -/
theorem handle_api_event_signing_failure_witness :
    handle_incoming_api_event exampleState ⟨[]⟩ 4
        ⟨.ok (), fun m => if m.tx == 42 then some 11 else none, [], [7], some 0⟩
        (.Inclusion ⟨1, [42] ++ 43 :: []⟩) =
      (⟨[(1, ⟨[⟨⟨7, 1, 42⟩, 11⟩]⟩)]⟩, .internalErr, [⟨7, 1, 42⟩, ⟨7, 1, 43⟩]) ∧
      (ExecutionState.constraintsAt ⟨[(1, ⟨[⟨⟨7, 1, 42⟩, 11⟩]⟩)]⟩ 1 =
        [⟨⟨7, 1, 42⟩, 11⟩]) :=
  handle_api_event_signing_failure exampleState ⟨[]⟩ 4
    ⟨.ok (), fun m => if m.tx == 42 then some 11 else none, [], [7], some 0⟩
    1 [42] 43 [] 7 7 rfl rfl rfl (by decide) rfl

/-- C5: at a commitment deadline for slot `S`, when
`execution.get_block_template(S)` is `none` the handler performs no build
and no submission and leaves the state unchanged; when it is `some t` the
handler dispatches exactly one relay submission whose constraint list is
exactly `t.signed_constraints_list` (and one local build for `(S, t)`),
again leaving the state unchanged. -/
theorem handle_commitment_deadline_spec (ex : ExecutionState) (slot : Slot) :
    (ex.get_block_template slot = none →
      handle_commitment_deadline ex slot = (ex, { built := [], submissions := [] })) ∧
    (∀ t, ex.get_block_template slot = some t →
      handle_commitment_deadline ex slot =
        (ex, { built := [(slot, t)], submissions := [t.signed_constraints_list] })) := by
  constructor
  · intro h
    simp [handle_commitment_deadline, h]
  · intro t h
    simp [handle_commitment_deadline, h]

/-- C5 witness: a state with no template for slot 5 produces no effects;
a state whose slot-5 template holds one signed constraint submits exactly
that one-element list once. -/
theorem handle_commitment_deadline_spec_witness :
    handle_commitment_deadline ⟨[]⟩ 5 = (⟨[]⟩, { built := [], submissions := [] }) ∧
      handle_commitment_deadline ⟨[(5, ⟨[⟨⟨7, 5, 42⟩, 9⟩]⟩)]⟩ 5 =
        (⟨[(5, ⟨[⟨⟨7, 5, 42⟩, 9⟩]⟩)]⟩,
          { built := [(5, ⟨[⟨⟨7, 5, 42⟩, 9⟩]⟩)], submissions := [[⟨⟨7, 5, 42⟩, 9⟩]] }) :=
  ⟨(handle_commitment_deadline_spec ⟨[]⟩ 5).1 rfl,
    (handle_commitment_deadline_spec ⟨[(5, ⟨[⟨⟨7, 5, 42⟩, 9⟩]⟩)]⟩ 5).2 ⟨[⟨⟨7, 5, 42⟩, 9⟩]⟩ rfl⟩

/-- C7: the spawned relay-submission task performs exactly five attempts
(with a 100 ms sleep after each failure) when every attempt fails, stops
immediately after the first successful attempt (`k + 1` attempts when
attempt `k` is the first success), and the deadline handler's state is
the input state regardless — the submission outcome never mutates
coordinator-owned state. -/
theorem submit_constraints_retry (result : Nat → Bool) :
    ((∀ i, result i = false) → submit_constraints_task result = (5, 5)) ∧
    (∀ k, k < 5 → result k = true → (∀ j, j < k → result j = false) →
      (submit_constraints_task result).1 = k + 1) ∧
    (∀ ex slot, (handle_commitment_deadline ex slot).1 = ex) := by
  refine ⟨?_, ?_, ?_⟩
  · intro h
    simp [submit_constraints_task, retryGo, h]
  · intro k hk h1 h2
    interval_cases k
    · simp [submit_constraints_task, retryGo, h1]
    · simp [submit_constraints_task, retryGo, h1, h2 0 (by omega)]
    · simp [submit_constraints_task, retryGo, h1, h2 0 (by omega), h2 1 (by omega)]
    · simp [submit_constraints_task, retryGo, h1, h2 0 (by omega), h2 1 (by omega),
        h2 2 (by omega)]
    · simp [submit_constraints_task, retryGo, h1, h2 0 (by omega), h2 1 (by omega),
        h2 2 (by omega), h2 3 (by omega)]
  · intro ex slot
    rcases hx : ex.get_block_template slot with _ | t <;>
      simp [handle_commitment_deadline, hx]

/-- C7 witness: all-fail gives five attempts and five sleeps; first
success at attempt 2 gives three attempts; the deadline handler returns
its input state. -/
theorem submit_constraints_retry_witness :
    submit_constraints_task (fun _ => false) = (5, 5) ∧
      (submit_constraints_task (fun i => i == 2)).1 = 3 ∧
      (handle_commitment_deadline ⟨[]⟩ 0).1 = ⟨[]⟩ :=
  ⟨(submit_constraints_retry (fun _ => false)).1 (fun _ => rfl),
    (submit_constraints_retry (fun i => i == 2)).2.1 2 (by decide) rfl
      (fun j hj => by interval_cases j <;> rfl),
    (submit_constraints_retry (fun _ => false)).2.2 ⟨[]⟩ 0⟩

/-- C8: when consensus validation rejects a commitment request, the
handler sends exactly that consensus error on the response channel,
returns the execution state unchanged (so no constraint is appended and
no template is created or modified for any slot), and never invokes the
BLS signer. -/
theorem handle_api_event_consensus_reject (consensus : ConsensusState) (ex : ExecutionState)
    (now : Nat) (oracles : ApiEventOracles) (request : CommitmentRequest) (e : ConsensusError)
    (h : consensus.validate_request now request = .error e) :
    handle_incoming_api_event consensus ex now oracles request = (ex, .consensusErr e, []) := by
  simp [handle_incoming_api_event, h]

/-- C8 witness: a request for slot 1 past the deadline is rejected with
`DeadlineExceeded`, state untouched, no signer call. -/
theorem handle_api_event_consensus_reject_witness :
    handle_incoming_api_event exampleState ⟨[]⟩ 6
        ⟨.ok (), fun _ => none, [], [], none⟩ (.Inclusion ⟨1, []⟩) =
      (⟨[]⟩, .consensusErr .DeadlineExceeded, []) :=
  handle_api_event_consensus_reject exampleState ⟨[]⟩ 6
    ⟨.ok (), fun _ => none, [], [], none⟩ (.Inclusion ⟨1, []⟩) .DeadlineExceeded rfl

/-- C9 counterexample: with a cached payload built for slot 10, a fetch
request naming slot 11 is answered with the slot-10 payload — the
response does not correspond to the slot named in the request
(`get_cached_payload()` takes no slot argument). -/
theorem handle_fetch_payload_counterexample :
    handle_fetch_payload_request ⟨some ⟨10, 0⟩⟩ ⟨11⟩ = (⟨some ⟨10, 0⟩⟩, some ⟨10, 0⟩) ∧
      (10 : Slot) ≠ 11 :=
  ⟨rfl, by decide⟩

/-- C9 (amended): `handle_fetch_payload_request` is a read-only lookup
that responds with the builder's cached payload-and-bid when one is
present, or none otherwise, irrespective of the slot named in the
request; no coordinator-owned state is mutated. -/
theorem handle_fetch_payload_spec (b : LocalBuilder) (r : FetchPayloadRequest) :
    handle_fetch_payload_request b r = (b, b.cached_payload) ∧
    ∀ r', (handle_fetch_payload_request b r).2 = (handle_fetch_payload_request b r').2 :=
  ⟨rfl, fun _ => rfl⟩

/-- C6: after `update_slot(slot)` returns Ok (starting from a state whose
epoch start slot is consistent, as `ConsensusState::new` establishes and
every update preserves): `latest_slot = slot`, `latest_slot_timestamp` is
the call time, the one-shot commitment deadline is re-armed for
`slot + 1` with the (unchanged) `commitment_deadline_duration`,
`epoch.value = slot / SLOTS_PER_EPOCH` and
`epoch.start_slot = epoch.value * SLOTS_PER_EPOCH`; proposer duties were
fetched exactly when the epoch changed or the stored duty list was empty,
for the new epoch and — if and only if unsafe lookahead is enabled — also
the next one, and were left untouched otherwise. -/
theorem update_slot_spec (c : ConsensusState) (now : Nat)
    (getDuties : Nat → Except Unit (List ProposerDuty)) (slot : Slot)
    (c' : ConsensusState) (fetched : List Nat)
    (hinv : c.epoch.start_slot = c.epoch.value * SLOTS_PER_EPOCH)
    (h : c.update_slot now getDuties slot = .ok (c', fetched)) :
    c'.latest_slot = slot ∧
    c'.latest_slot_timestamp = now ∧
    c'.commitment_deadline = CommitmentDeadline.new (slot + 1) c.commitment_deadline_duration ∧
    c'.commitment_deadline_duration = c.commitment_deadline_duration ∧
    c'.epoch.value = slot / SLOTS_PER_EPOCH ∧
    c'.epoch.start_slot = c'.epoch.value * SLOTS_PER_EPOCH ∧
    fetched = (if slot / SLOTS_PER_EPOCH ≠ c.epoch.value ∨ c.epoch.proposer_duties = [] then
        if c.unsafe_lookahead_enabled then [slot / SLOTS_PER_EPOCH, slot / SLOTS_PER_EPOCH + 1]
        else [slot / SLOTS_PER_EPOCH]
      else []) ∧
    (fetched = [] → c'.epoch.proposer_duties = c.epoch.proposer_duties) := by
  simp only [ConsensusState.update_slot, ConsensusState.fetch_proposer_duties] at h
  split at h
  case isTrue hep =>
    split at h
    case isTrue hlk =>
      split at h
      case h_1 duties next_duties hd hnd =>
        rw [Except.ok.injEq, Prod.mk.injEq] at h
        obtain ⟨rfl, rfl⟩ := h
        refine ⟨rfl, rfl, rfl, rfl, rfl, by simp [SLOTS_PER_EPOCH], ?_, ?_⟩
        · simp only [if_pos (Or.inl hep), if_pos hlk]
        · intro hcon; exact absurd hcon (by simp)
      case h_2 e hd => exact absurd h (by simp)
      case h_3 x e hd => exact absurd h (by simp)
    case isFalse hlk =>
      split at h
      case h_1 duties hd =>
        rw [Except.ok.injEq, Prod.mk.injEq] at h
        obtain ⟨rfl, rfl⟩ := h
        refine ⟨rfl, rfl, rfl, rfl, rfl, by simp [SLOTS_PER_EPOCH], ?_, ?_⟩
        · simp only [if_pos (Or.inl hep), if_neg hlk]
        · intro hcon; exact absurd hcon (by simp)
      case h_2 e hd => exact absurd h (by simp)
  case isFalse hep =>
    have hval : slot / SLOTS_PER_EPOCH = c.epoch.value := by
      by_contra hcon; exact hep hcon
    split at h
    case isTrue hemp =>
      have hemp' : c.epoch.proposer_duties = [] := List.isEmpty_iff.mp hemp
      split at h
      case isTrue hlk =>
        split at h
        case h_1 duties next_duties hd hnd =>
          rw [Except.ok.injEq, Prod.mk.injEq] at h
          obtain ⟨rfl, rfl⟩ := h
          refine ⟨rfl, rfl, rfl, rfl, hval.symm ▸ rfl, ?_, ?_, ?_⟩
          · simp only [hval]; exact hinv
          · simp only [if_pos (Or.inr hemp'), if_pos hlk]
          · intro hcon; exact absurd hcon (by simp)
        case h_2 e hd => exact absurd h (by simp)
        case h_3 x e hd => exact absurd h (by simp)
      case isFalse hlk =>
        split at h
        case h_1 duties hd =>
          rw [Except.ok.injEq, Prod.mk.injEq] at h
          obtain ⟨rfl, rfl⟩ := h
          refine ⟨rfl, rfl, rfl, rfl, hval.symm ▸ rfl, ?_, ?_, ?_⟩
          · simp only [hval]; exact hinv
          · simp only [if_pos (Or.inr hemp'), if_neg hlk]
          · intro hcon; exact absurd hcon (by simp)
        case h_2 e hd => exact absurd h (by simp)
    case isFalse hemp =>
      have hemp' : c.epoch.proposer_duties ≠ [] := by
        intro hcon
        exact hemp (by simp [hcon])
      rw [Except.ok.injEq, Prod.mk.injEq] at h
      obtain ⟨rfl, rfl⟩ := h
      refine ⟨rfl, rfl, rfl, rfl, hval.symm ▸ rfl, ?_, ?_, fun _ => rfl⟩
      · simp only [hval]; exact hinv
      · rw [if_neg]
        push_neg
        exact ⟨hval, hemp'⟩

/-- C6 witness: updating the example state (epoch 0, non-empty duties) to
slot 33 at time 99 moves to epoch 1, re-arms the deadline for slot 34,
and fetches exactly epoch 1's duties (no lookahead). -/
theorem update_slot_spec_witness :
    exampleState.update_slot 99 (fun e => .ok [⟨e, e, e⟩]) 33 =
      .ok ({ epoch := { value := 1, start_slot := 32, proposer_duties := [⟨1, 1, 1⟩] }
             validator_indexes := ⟨[100]⟩
             latest_slot_timestamp := 99
             latest_slot := 33
             commitment_deadline := ⟨34, 5⟩
             commitment_deadline_duration := 5
             unsafe_lookahead_enabled := false }, [1]) ∧
      ({ epoch := { value := 1, start_slot := 32, proposer_duties := [⟨1, 1, 1⟩] }
         validator_indexes := ⟨[100]⟩
         latest_slot_timestamp := 99
         latest_slot := 33
         commitment_deadline := ⟨34, 5⟩
         commitment_deadline_duration := 5
         unsafe_lookahead_enabled := false } : ConsensusState).latest_slot = 33 ∧
      ({ epoch := { value := 1, start_slot := 32, proposer_duties := [⟨1, 1, 1⟩] }
         validator_indexes := ⟨[100]⟩
         latest_slot_timestamp := 99
         latest_slot := 33
         commitment_deadline := ⟨34, 5⟩
         commitment_deadline_duration := 5
         unsafe_lookahead_enabled := false } : ConsensusState).commitment_deadline =
        CommitmentDeadline.new 34 5 ∧
      ([1] : List Nat) =
        (if 33 / SLOTS_PER_EPOCH ≠ exampleState.epoch.value ∨
            exampleState.epoch.proposer_duties = [] then
          if exampleState.unsafe_lookahead_enabled then
            [33 / SLOTS_PER_EPOCH, 33 / SLOTS_PER_EPOCH + 1]
          else [33 / SLOTS_PER_EPOCH]
        else []) := by
  have hspec := update_slot_spec exampleState 99 (fun e => .ok [⟨e, e, e⟩]) 33
    { epoch := { value := 1, start_slot := 32, proposer_duties := [⟨1, 1, 1⟩] }
      validator_indexes := ⟨[100]⟩
      latest_slot_timestamp := 99
      latest_slot := 33
      commitment_deadline := ⟨34, 5⟩
      commitment_deadline_duration := 5
      unsafe_lookahead_enabled := false } [1] rfl rfl
  exact ⟨rfl, hspec.1, hspec.2.2.1, hspec.2.2.2.2.2.2.1⟩

/-- C10: the signing digests of `DelegationMessage{v, d}` and
`RevocationMessage{v, d}` hash the identical byte stream
`bytes(v) ++ bytes(d)` with no message-type domain separation, so they
are equal for every hash function — and hence any digest-based signature
check accepts a signature for one exactly when it accepts it for the
other. -/
theorem delegation_revocation_digest_eq (sha256 : List Nat → List Nat)
    (toVec : BlsPublicKey → List Nat) (v d : BlsPublicKey) :
    DelegationMessage.digest sha256 toVec ⟨v, d⟩ = RevocationMessage.digest sha256 toVec ⟨v, d⟩ ∧
    ∀ (verifies : List Nat → BlsSignature → Bool) (sig : BlsSignature),
      verifies (DelegationMessage.digest sha256 toVec ⟨v, d⟩) sig =
        verifies (RevocationMessage.digest sha256 toVec ⟨v, d⟩) sig :=
  ⟨rfl, fun _ _ => rfl⟩

end Bolt
